import Mathlib

/-!
Verification of the adventure-game branching-narrative engine: condition
evaluation, state-change application, the session state machine, project
structural validation, and the serialized condition representation.

The definitions below are a shallow embedding of the Python source in
`src/adventure_game/models/` (choice.py, condition.py, node.py, project.py,
game_state.py).  Dynamic (JSON-like) Python values are modelled by the tagged
variant `DVal`; Python runtime exceptions (`TypeError`, `ValueError`) are
modelled by `Except PyErr`; in-place mutation of the caller's dictionary via
shallow-copy aliasing is modelled explicitly by returning, next to the
function result, the state of the caller's mapping after the call.
-/

set_option autoImplicit false

namespace AdventureGame

/-- Dynamic game-state value: null, boolean, number, string or list,
mirroring the JSON values stored in `variables` / condition `value` fields.
Numbers are modelled as integers. -/
inductive DVal where
  | null
  | bool (b : Bool)
  | num (n : Int)
  | str (s : String)
  | list (xs : List DVal)

mutual

/-- Decidable structural equality on `DVal` (Lean-level equality of the
embedding, distinct from Python's `==`, which is `pyEq` below). -/
def decEqDVal : (a b : DVal) → Decidable (a = b)
  | .null, .null => .isTrue rfl
  | .null, .bool _ => .isFalse (fun h => DVal.noConfusion h)
  | .null, .num _ => .isFalse (fun h => DVal.noConfusion h)
  | .null, .str _ => .isFalse (fun h => DVal.noConfusion h)
  | .null, .list _ => .isFalse (fun h => DVal.noConfusion h)
  | .bool _, .null => .isFalse (fun h => DVal.noConfusion h)
  | .bool a, .bool b =>
    match decEq a b with
    | .isTrue h => .isTrue (h ▸ rfl)
    | .isFalse h => .isFalse (fun he => h (DVal.bool.inj he))
  | .bool _, .num _ => .isFalse (fun h => DVal.noConfusion h)
  | .bool _, .str _ => .isFalse (fun h => DVal.noConfusion h)
  | .bool _, .list _ => .isFalse (fun h => DVal.noConfusion h)
  | .num _, .null => .isFalse (fun h => DVal.noConfusion h)
  | .num _, .bool _ => .isFalse (fun h => DVal.noConfusion h)
  | .num a, .num b =>
    match decEq a b with
    | .isTrue h => .isTrue (h ▸ rfl)
    | .isFalse h => .isFalse (fun he => h (DVal.num.inj he))
  | .num _, .str _ => .isFalse (fun h => DVal.noConfusion h)
  | .num _, .list _ => .isFalse (fun h => DVal.noConfusion h)
  | .str _, .null => .isFalse (fun h => DVal.noConfusion h)
  | .str _, .bool _ => .isFalse (fun h => DVal.noConfusion h)
  | .str _, .num _ => .isFalse (fun h => DVal.noConfusion h)
  | .str a, .str b =>
    match decEq a b with
    | .isTrue h => .isTrue (h ▸ rfl)
    | .isFalse h => .isFalse (fun he => h (DVal.str.inj he))
  | .str _, .list _ => .isFalse (fun h => DVal.noConfusion h)
  | .list _, .null => .isFalse (fun h => DVal.noConfusion h)
  | .list _, .bool _ => .isFalse (fun h => DVal.noConfusion h)
  | .list _, .num _ => .isFalse (fun h => DVal.noConfusion h)
  | .list _, .str _ => .isFalse (fun h => DVal.noConfusion h)
  | .list xs, .list ys =>
    match decEqDValList xs ys with
    | .isTrue h => .isTrue (h ▸ rfl)
    | .isFalse h => .isFalse (fun he => h (DVal.list.inj he))

/-- Decidable structural equality on lists of `DVal`. -/
def decEqDValList : (xs ys : List DVal) → Decidable (xs = ys)
  | [], [] => .isTrue rfl
  | [], _ :: _ => .isFalse (fun h => List.noConfusion h)
  | _ :: _, [] => .isFalse (fun h => List.noConfusion h)
  | x :: xs, y :: ys =>
    match decEqDVal x y, decEqDValList xs ys with
    | .isTrue h1, .isTrue h2 => .isTrue (by rw [h1, h2])
    | .isFalse h1, _ => .isFalse (fun he => h1 (List.cons.inj he).1)
    | _, .isFalse h2 => .isFalse (fun he => h2 (List.cons.inj he).2)

end

instance : DecidableEq DVal := decEqDVal

/-- Python exceptions that the embedded code can raise. -/
inductive PyErr where
  | typeError
  | valueError
  deriving DecidableEq

/-- Decidable equality of `Except` results, for evaluating the model on
concrete inputs. -/
def decEqExcept {ε α : Type} [DecidableEq ε] [DecidableEq α] :
    (a b : Except ε α) → Decidable (a = b)
  | .ok x, .ok y =>
    match decEq x y with
    | .isTrue h => .isTrue (h ▸ rfl)
    | .isFalse h => .isFalse (fun he => h (Except.ok.inj he))
  | .ok _, .error _ => .isFalse (fun h => Except.noConfusion h)
  | .error _, .ok _ => .isFalse (fun h => Except.noConfusion h)
  | .error x, .error y =>
    match decEq x y with
    | .isTrue h => .isTrue (h ▸ rfl)
    | .isFalse h => .isFalse (fun he => h (Except.error.inj he))

instance {ε α : Type} [DecidableEq ε] [DecidableEq α] : DecidableEq (Except ε α) :=
  decEqExcept

/-- A Python dictionary with string keys, as an insertion-ordered
association list (game-state variable stores and JSON-like dicts). -/
abbrev PyDict := List (String × DVal)

/-- Python `d.get(k)`: value of the first entry with key `k`, if present. -/
def dictGet : PyDict → String → Option DVal
  | [], _ => none
  | (k', v') :: rest, k => if k' = k then some v' else dictGet rest k

/-- Python `d[k] = v`: replace the value at key `k` in place, or append a new
entry, preserving insertion order as Python dicts do. -/
def dictSet : PyDict → String → DVal → PyDict
  | [], k, v => [(k, v)]
  | (k', v') :: rest, k, v =>
    if k' = k then (k, v) :: rest else (k', v') :: dictSet rest k v

/-- Python truthiness of a dynamic value (`bool(v)`). -/
def truthy : DVal → Bool
  | .null => false
  | .bool b => b
  | .num n => n != 0
  | .str s => s != ""
  | .list xs => !xs.isEmpty

/-- Python `v or d`: `v` when truthy, otherwise the default `d`. -/
def orDefault (v d : DVal) : DVal := if truthy v then v else d

mutual

/-- Python `==` on dynamic values: numbers and booleans compare by numeric
value (`True == 1`), lists compare elementwise, other cross-type
comparisons are `False`. -/
def pyEq : DVal → DVal → Bool
  | .null, .null => true
  | .bool a, .bool b => a == b
  | .bool a, .num n => (if a then (1 : Int) else 0) == n
  | .num n, .bool b => n == (if b then (1 : Int) else 0)
  | .num a, .num b => a == b
  | .str a, .str b => a == b
  | .list a, .list b => pyEqList a b
  | _, _ => false

/-- Python `==` on lists, elementwise. -/
def pyEqList : List DVal → List DVal → Bool
  | [], [] => true
  | a :: as, b :: bs => pyEq a b && pyEqList as bs
  | _, _ => false

end

/-- A boolean or number viewed as a Python integer (`bool` is an `int`
subclass), `none` for non-numeric values. -/
def toIntNum : DVal → Option Int
  | .num n => some n
  | .bool b => some (if b then 1 else 0)
  | _ => none

/-- Lexicographic `<` on code-point sequences (Python string `<`). -/
def charListLt : List Char → List Char → Bool
  | [], [] => false
  | [], _ :: _ => true
  | _ :: _, [] => false
  | a :: as, b :: bs => if a = b then charListLt as bs else decide (a < b)

/-- Lexicographic `<=` on code-point sequences (Python string `<=`). -/
def charListLe : List Char → List Char → Bool
  | [], _ => true
  | _ :: _, [] => false
  | a :: as, b :: bs => if a = b then charListLe as bs else decide (a < b)

mutual

/-- Python `a < b`: numeric comparison when both sides are numbers or
booleans, lexicographic on two strings or two lists, `TypeError`
otherwise. -/
def pyLt (a b : DVal) : Except PyErr Bool :=
  match toIntNum a, toIntNum b with
  | some x, some y => .ok (decide (x < y))
  | _, _ =>
    match a, b with
    | .str s, .str t => .ok (charListLt s.data t.data)
    | .list xs, .list ys => pyListLt xs ys
    | _, _ => .error .typeError

/-- Python list `<`: skip `==`-equal heads, apply `<` to the first unequal
pair, compare lengths when one list is a prefix of the other. -/
def pyListLt : List DVal → List DVal → Except PyErr Bool
  | [], [] => .ok false
  | [], _ :: _ => .ok true
  | _ :: _, [] => .ok false
  | x :: xs, y :: ys => if pyEq x y then pyListLt xs ys else pyLt x y

end

mutual

/-- Python `a <= b`, with the same typing rules as `pyLt`. -/
def pyLe (a b : DVal) : Except PyErr Bool :=
  match toIntNum a, toIntNum b with
  | some x, some y => .ok (decide (x ≤ y))
  | _, _ =>
    match a, b with
    | .str s, .str t => .ok (charListLe s.data t.data)
    | .list xs, .list ys => pyListLe xs ys
    | _, _ => .error .typeError

/-- Python list `<=`: skip `==`-equal heads, apply `<=` to the first
unequal pair, compare lengths otherwise. -/
def pyListLe : List DVal → List DVal → Except PyErr Bool
  | [], _ => .ok true
  | _ :: _, [] => .ok false
  | x :: xs, y :: ys => if pyEq x y then pyListLe xs ys else pyLe x y

end

/-- Whether `needle` is a leading block of `hay`. -/
def startsWithChars : List Char → List Char → Bool
  | [], _ => true
  | _ :: _, [] => false
  | a :: as, b :: bs => a = b && startsWithChars as bs

/-- Whether `needle` occurs contiguously somewhere in `hay`
(Python substring test). -/
def hasSubChars (needle : List Char) : List Char → Bool
  | [] => startsWithChars needle []
  | hay@(_ :: t) => startsWithChars needle hay || hasSubChars needle t

/-- Python `x in container`: substring test on strings (`TypeError` when
the needle is not a string), elementwise `==` membership on lists,
`TypeError` on non-iterable containers. -/
def pyIn (x container : DVal) : Except PyErr Bool :=
  match container with
  | .str s =>
    match x with
    | .str t => .ok (hasSubChars t.data s.data)
    | _ => .error .typeError
  | .list xs => .ok (xs.any fun e => pyEq e x)
  | _ => .error .typeError

/-- A condition dictionary as consumed by `Choice._evaluate_conditions`,
after the `.get` defaults: `variable` defaults to `""`, `operator` to
`"eq"`, `value` to null. -/
structure Cond where
  var : String
  operator : String
  value : DVal
  deriving DecidableEq

/-- One iteration of the operator dispatch in
`Choice._evaluate_conditions` (choice.py lines 141-178): look the variable
up in the game state and evaluate the operator, with Python `or`-defaults
on both sides of the numeric comparisons, `or ""` on the `contains`
container and `or []` on the `in` container.  An operator outside the
known set yields `false`. -/
def evalCond (c : Cond) (st : PyDict) : Except PyErr Bool :=
  let cur := (dictGet st c.var).getD DVal.null
  let exp := c.value
  if c.operator = "eq" then .ok (pyEq cur exp)
  else if c.operator = "ne" then .ok (!pyEq cur exp)
  else if c.operator = "gt" then
    pyLt (orDefault exp (DVal.num 0)) (orDefault cur (DVal.num 0))
  else if c.operator = "gte" then
    pyLe (orDefault exp (DVal.num 0)) (orDefault cur (DVal.num 0))
  else if c.operator = "lt" then
    pyLt (orDefault cur (DVal.num 0)) (orDefault exp (DVal.num 0))
  else if c.operator = "lte" then
    pyLe (orDefault cur (DVal.num 0)) (orDefault exp (DVal.num 0))
  else if c.operator = "contains" then
    pyIn exp (orDefault cur (DVal.str ""))
  else if c.operator = "not_contains" then
    (pyIn exp (orDefault cur (DVal.str ""))).map (fun b => !b)
  else if c.operator = "in" then
    pyIn cur (orDefault exp (DVal.list []))
  else if c.operator = "not_in" then
    (pyIn cur (orDefault exp (DVal.list []))).map (fun b => !b)
  else if c.operator = "exists" then .ok (dictGet st c.var).isSome
  else if c.operator = "not_exists" then .ok (dictGet st c.var).isNone
  else .ok false

/-- The `results` list built by the loop in `Choice._evaluate_conditions`:
every condition is evaluated (no short-circuit), the first raised error
propagates. -/
def evalCondResults : List Cond → PyDict → Except PyErr (List Bool)
  | [], _ => .ok []
  | c :: cs, st => do
    let r ← evalCond c st
    let rs ← evalCondResults cs st
    .ok (r :: rs)

/-- Embeds `Choice._evaluate_conditions`: empty list is `true`, otherwise
`all(results)` over the collected per-condition results. -/
def evaluateConditionsChoice (cs : List Cond) (st : PyDict) : Except PyErr Bool :=
  if cs.isEmpty then .ok true
  else (evalCondResults cs st).map (fun rs => rs.all fun b => b)

/-- The operation set applied to a single variable by
`Choice.apply_state_changes`: either a literal replacement value, or a
structured `{operation, value}` dict after its `.get` defaults
(`operation` defaults to `"set"`, `value` to `0`). -/
inductive Change where
  | lit (v : DVal)
  | struct (operation : String) (value : DVal)
  deriving DecidableEq

/-- A choice row (choice.py): id, text, optional target node, display
order, condition list and state-change map. -/
structure Choice where
  id : String
  text : String
  target_node_id : Option String
  display_order : Int
  conditions : List Cond
  state_changes : List (String × Change)
  deriving DecidableEq

/-- Embeds `Choice.is_available`: vacuously true on an empty (falsy) condition
list, otherwise `_evaluate_conditions`. -/
def isAvailable (c : Choice) (st : PyDict) : Except PyErr Bool :=
  if c.conditions.isEmpty then .ok true
  else evaluateConditionsChoice c.conditions st

/-- Python `a + b` on dynamic values: numeric addition (booleans count as
0/1), string and list concatenation, `TypeError` otherwise. -/
def pyAdd (a b : DVal) : Except PyErr DVal :=
  match toIntNum a, toIntNum b with
  | some x, some y => .ok (.num (x + y))
  | _, _ =>
    match a, b with
    | .str s, .str t => .ok (.str (s ++ t))
    | .list xs, .list ys => .ok (.list (xs ++ ys))
    | _, _ => .error .typeError

/-- Python `a - b`: numeric only. -/
def pySub (a b : DVal) : Except PyErr DVal :=
  match toIntNum a, toIntNum b with
  | some x, some y => .ok (.num (x - y))
  | _, _ => .error .typeError

/-- Builds `n` copies of a list, empty for `n <= 0` (Python sequence repetition). -/
def listRepeat (xs : List DVal) : Nat → List DVal
  | 0 => []
  | n + 1 => xs ++ listRepeat xs n

/-- Python `a * b`: numeric product, or sequence repetition when one side
is a string or list and the other a number, `TypeError` otherwise. -/
def pyMul (a b : DVal) : Except PyErr DVal :=
  match toIntNum a, toIntNum b with
  | some x, some y => .ok (.num (x * y))
  | _, _ =>
    match a, b with
    | .str s, _ =>
      match toIntNum b with
      | some y => .ok (.str (String.join (List.replicate y.toNat s)))
      | none => .error .typeError
    | _, .str s =>
      match toIntNum a with
      | some x => .ok (.str (String.join (List.replicate x.toNat s)))
      | none => .error .typeError
    | .list xs, _ =>
      match toIntNum b with
      | some y => .ok (.list (listRepeat xs y.toNat))
      | none => .error .typeError
    | _, .list ys =>
      match toIntNum a with
      | some x => .ok (.list (listRepeat ys x.toNat))
      | none => .error .typeError
    | _, _ => .error .typeError

/-- Python `list.remove(v)` with the surrounding `try/except ValueError: pass`:
drop the first `==`-equal occurrence, no-op when absent. -/
def removeFirstPy (v : DVal) : List DVal → List DVal
  | [] => []
  | x :: xs => if pyEq x v then xs else x :: removeFirstPy v xs

/-- The working `new_state` during `apply_state_changes`: each entry carries a flag
recording whether its value is still the very object bound to the same
key in the caller's dictionary (true right after the shallow
`game_state.copy()`, cleared by any rebinding `new_state[k] = ...`).
In-place list mutation of a flagged entry is visible through the caller's
dictionary. -/
abbrev NewState := List (String × DVal × Bool)

/-- Lookup in the working `new_state`. -/
def nsGet : NewState → String → Option (DVal × Bool)
  | [], _ => none
  | (k', vb) :: rest, k => if k' = k then some vb else nsGet rest k

/-- Update/insert in the working `new_state`, preserving entry order. -/
def nsSet : NewState → String → DVal × Bool → NewState
  | [], k, vb => [(k, vb)]
  | (k', vb') :: rest, k, vb =>
    if k' = k then (k, vb) :: rest else (k', vb') :: nsSet rest k vb

/-- One iteration of the `for variable, change in self.state_changes`
loop of `Choice.apply_state_changes` (choice.py lines 200-227), acting on
the working copy `ns` and on the caller's dictionary `inp` (the latter
changes only through in-place mutation of a still-shared list). -/
def applyOne (ns : NewState) (inp : PyDict) (k : String) (ch : Change) :
    Except PyErr (NewState × PyDict) :=
  match ch with
  | .lit v => .ok (nsSet ns k (v, false), inp)
  | .struct oper v =>
    if oper = "set" then .ok (nsSet ns k (v, false), inp)
    else if oper = "add" then do
      let cur := ((nsGet ns k).map Prod.fst).getD (DVal.num 0)
      let r ← pyAdd (orDefault cur (DVal.num 0)) v
      .ok (nsSet ns k (r, false), inp)
    else if oper = "subtract" then do
      let cur := ((nsGet ns k).map Prod.fst).getD (DVal.num 0)
      let r ← pySub (orDefault cur (DVal.num 0)) v
      .ok (nsSet ns k (r, false), inp)
    else if oper = "multiply" then do
      let cur := ((nsGet ns k).map Prod.fst).getD (DVal.num 0)
      let r ← pyMul (orDefault cur (DVal.num 0)) v
      .ok (nsSet ns k (r, false), inp)
    else if oper = "append" then
      match nsGet ns k with
      | none => .ok (nsSet ns k (DVal.list [v], false), inp)
      | some (DVal.list xs, shared) =>
        let nv := DVal.list (xs ++ [v])
        .ok (nsSet ns k (nv, shared), if shared then dictSet inp k nv else inp)
      | some _ => .ok (ns, inp)
    else if oper = "remove" then
      match nsGet ns k with
      | some (DVal.list xs, shared) =>
        let nv := DVal.list (removeFirstPy v xs)
        .ok (nsSet ns k (nv, shared), if shared then dictSet inp k nv else inp)
      | _ => .ok (ns, inp)
    else .ok (ns, inp)

/-- The loop of `Choice.apply_state_changes` over all entries of the
state-change map; an exception aborts the loop, leaving the caller's
dictionary in whatever state the in-place mutations put it in. -/
def applyGo : List (String × Change) → NewState → PyDict →
    Except PyErr PyDict × PyDict
  | [], ns, inp => (.ok (ns.map fun p => (p.1, p.2.1)), inp)
  | (k, ch) :: rest, ns, inp =>
    match applyOne ns inp k ch with
    | .ok (ns', inp') => applyGo rest ns' inp'
    | .error e => (.error e, inp)

/-- Embeds `Choice.apply_state_changes`: returns the function result (the
`new_state` built from the shallow copy, or the raised exception) paired
with the caller's dictionary as it stands after the call. -/
def applyStateChanges (changes : List (String × Change)) (st : PyDict) :
    Except PyErr PyDict × PyDict :=
  if changes.isEmpty then (.ok st, st)
  else applyGo changes (st.map fun p => (p.1, p.2, true)) st

/-- A story node (node.py): flags and the ordered list of owned choices. -/
structure GameNode where
  id : String
  title : String
  is_start_node : Bool
  is_end_node : Bool
  choices : List Choice
  deriving DecidableEq

/-- The filtering loop of `GameNode.get_available_choices`. -/
def goAvailable : List Choice → PyDict → Except PyErr (List Choice)
  | [], _ => .ok []
  | c :: cs, st => do
    let b ← isAvailable c st
    let rest ← goAvailable cs st
    .ok (if b then c :: rest else rest)

/-- Embeds `GameNode.get_available_choices`: walk `self.choices` in stored order
and keep those whose `is_available` returns true; an exception raised by
`is_available` propagates. -/
def getAvailableChoices (n : GameNode) (st : PyDict) : Except PyErr (List Choice) :=
  goAvailable n.choices st

/-- A project (project.py): publication flag and owned nodes in creation
order. -/
structure Project where
  id : String
  name : String
  published : Bool
  nodes : List GameNode
  deriving DecidableEq

/-- Embeds `Project.get_start_node`: first node of the project flagged
`is_start_node`, if any. -/
def getStartNode (p : Project) : Option GameNode :=
  p.nodes.find? fun n => n.is_start_node

/-- Embeds `Project.get_end_nodes`: all nodes flagged `is_end_node`. -/
def getEndNodes (p : Project) : List GameNode :=
  p.nodes.filter fun n => n.is_end_node

/-- All `target_node_id`s appearing on any choice of the project
(the `target_node_ids` set of `Project.validate_structure`). -/
def targetNodeIds (p : Project) : List String :=
  p.nodes.flatMap fun n => n.choices.filterMap fun c => c.target_node_id

/-- Embeds `Project.validate_structure`: start-node check, end-node check, then
one error per non-start node that is no choice's target, in node order. -/
def validateStructure (p : Project) : List String :=
  let e1 : List String :=
    if (getStartNode p).isNone then ["Project must have exactly one start node"] else []
  let e2 : List String :=
    if (getEndNodes p).isEmpty then e1 ++ ["Project must have at least one end node"] else e1
  e2 ++ ((p.nodes.filter fun n => !n.is_start_node && !(targetNodeIds p).contains n.id).map
    fun n => "Node \x27" ++ n.title ++ "\x27 is unreachable from other nodes")

/-- Embeds `Project.publish`: validate, set `published` only when the error list
is empty, return the error list regardless. -/
def publish (p : Project) : List String × Project :=
  let errors := validateStructure p
  if errors.isEmpty then (errors, { p with published := true }) else (errors, p)

/-- A player session (game_state.py).  `completed` is the raw `"Y"`/`"N"`
column value. -/
structure GameState where
  project_id : String
  player_id : String
  current_node_id : Option String
  vars : PyDict
  choice_history : List String
  save_name : Option String
  completed : String
  deriving DecidableEq

/-- Embeds `GameState.is_completed`: the flag reads true exactly on `"Y"`. -/
def isCompleted (s : GameState) : Bool := s.completed == "Y"

/-- Embeds `GameState.move_to_node`: set the current node; moving to `None`
(game ending) marks the session completed, moving to a node leaves the
flag untouched. -/
def moveToNode (s : GameState) (nodeId : Option String) : GameState :=
  match nodeId with
  | none => { s with current_node_id := none, completed := "Y" }
  | some nid => { s with current_node_id := some nid }

/-- The dictionary returned by `GameState.make_choice`. -/
structure MakeChoiceResult where
  new_node_id : Option String
  updated_variables : PyDict
  completed : Bool
  choice_history : List String
  deriving DecidableEq

/-- Embeds `GameState.make_choice`: reject an unavailable choice with a
`ValueError` (an exception from condition evaluation itself propagates
instead), then apply the state changes, append to the history and move to
the target node.  The second component is the session as it stands after
the call, including the partially mutated variable dictionary when
`apply_state_changes` raises. -/
def makeChoice (s : GameState) (c : Choice) :
    Except PyErr MakeChoiceResult × GameState :=
  match isAvailable c s.vars with
  | .error e => (.error e, s)
  | .ok false => (.error .valueError, s)
  | .ok true =>
    match applyStateChanges c.state_changes s.vars with
    | (.error e, inpAfter) => (.error e, { s with vars := inpAfter })
    | (.ok newVars, _) =>
      let s2 := { s with
        vars := newVars,
        choice_history := s.choice_history ++ [c.id] }
      let s3 := moveToNode s2 c.target_node_id
      (.ok { new_node_id := c.target_node_id, updated_variables := newVars,
             completed := isCompleted s3, choice_history := s3.choice_history }, s3)

/-- Embeds `GameState.restart_game`: `ValueError` when the project has no start
node (session untouched), otherwise reset to the start node with empty
variables and history and `completed = "N"`. -/
def restartGame (s : GameState) (p : Project) : Except PyErr GameState :=
  match getStartNode p with
  | none => .error .valueError
  | some n => .ok { s with
      current_node_id := some n.id,
      vars := [],
      choice_history := [],
      completed := "N" }

/-- The closed operator enumeration `ConditionOperator` (condition.py). -/
inductive ConditionOperator where
  | eq | ne | gt | gte | lt | lte
  | contains | not_contains | in_ | not_in
  | exists_ | not_exists
  deriving DecidableEq

/-- The `.value` string of each `ConditionOperator` member. -/
def ConditionOperator.toStr : ConditionOperator → String
  | .eq => "eq"
  | .ne => "ne"
  | .gt => "gt"
  | .gte => "gte"
  | .lt => "lt"
  | .lte => "lte"
  | .contains => "contains"
  | .not_contains => "not_contains"
  | .in_ => "in"
  | .not_in => "not_in"
  | .exists_ => "exists"
  | .not_exists => "not_exists"

/-- Python `ConditionOperator(s)`: by-value enum lookup, `none` for an
unrecognized string (Python raises `ValueError` there). -/
def strToOperator (s : String) : Option ConditionOperator :=
  if s = "eq" then some .eq
  else if s = "ne" then some .ne
  else if s = "gt" then some .gt
  else if s = "gte" then some .gte
  else if s = "lt" then some .lt
  else if s = "lte" then some .lte
  else if s = "contains" then some .contains
  else if s = "not_contains" then some .not_contains
  else if s = "in" then some .in_
  else if s = "not_in" then some .not_in
  else if s = "exists" then some .exists_
  else if s = "not_exists" then some .not_exists
  else none

/-- The standalone `Condition` entity (condition.py).  `var` holds the
raw `variable` value from the JSON data (the column is typed as a string
but the constructor stores whatever `data.get("variable", "")` returned);
absent `value`/`description` are stored as null. -/
structure Condition where
  var : DVal
  operator : ConditionOperator
  value : DVal
  description : DVal
  deriving DecidableEq

/-- Python `game_state.get(self.variable)` for a `Condition` entity: a string
key looks the variable up, a list key is unhashable (`TypeError`), any
other hashable key is simply absent from the string-keyed state. -/
def stateLookup (st : PyDict) : DVal → Except PyErr (Option DVal)
  | .str s => .ok (dictGet st s)
  | .list _ => .error .typeError
  | _ => .ok none

/-- Embeds `Condition.evaluate` (condition.py lines 106-146): the same operator
semantics as `Choice._evaluate_conditions`, dispatching on the closed
enum. -/
def conditionEvaluate (c : Condition) (st : PyDict) : Except PyErr Bool := do
  let cur? ← stateLookup st c.var
  let cur := cur?.getD DVal.null
  let exp := c.value
  match c.operator with
  | .eq => .ok (pyEq cur exp)
  | .ne => .ok (!pyEq cur exp)
  | .gt => pyLt (orDefault exp (DVal.num 0)) (orDefault cur (DVal.num 0))
  | .gte => pyLe (orDefault exp (DVal.num 0)) (orDefault cur (DVal.num 0))
  | .lt => pyLt (orDefault cur (DVal.num 0)) (orDefault exp (DVal.num 0))
  | .lte => pyLe (orDefault cur (DVal.num 0)) (orDefault exp (DVal.num 0))
  | .contains => pyIn exp (orDefault cur (DVal.str ""))
  | .not_contains => (pyIn exp (orDefault cur (DVal.str ""))).map (fun b => !b)
  | .in_ => pyIn cur (orDefault exp (DVal.list []))
  | .not_in => (pyIn cur (orDefault exp (DVal.list []))).map (fun b => !b)
  | .exists_ => .ok cur?.isSome
  | .not_exists => .ok cur?.isNone

/-- Embeds `evaluate_conditions_list` (condition.py lines 254-268): empty list
is true; otherwise `all(...)` over a generator, which short-circuits at
the first false result. -/
def evaluateConditionsList : List Condition → PyDict → Except PyErr Bool
  | [], _ => .ok true
  | c :: cs, st => do
    let b ← conditionEvaluate c st
    if b then evaluateConditionsList cs st else .ok false

/-- Embeds `Condition.to_json_dict`: the four-key dictionary, with the operator
rendered as its enum value string. -/
def toJsonDict (c : Condition) : PyDict :=
  [("variable", c.var), ("operator", DVal.str c.operator.toStr),
   ("value", c.value), ("description", c.description)]

/-- Embeds `Condition.from_json_dict`: `.get` defaults for every field, and an
operator string that is not a valid enum value (or not a string at all)
falls back to `EQ`. -/
def fromJsonDict (data : PyDict) : Condition :=
  let opVal := (dictGet data "operator").getD (DVal.str "eq")
  let oper :=
    match opVal with
    | .str s => (strToOperator s).getD .eq
    | _ => .eq
  { var := (dictGet data "variable").getD (DVal.str ""),
    operator := oper,
    value := (dictGet data "value").getD .null,
    description := (dictGet data "description").getD .null }

/-- Python `==` on two dictionaries: same key set, `==`-equal values,
insertion order irrelevant. -/
def pyDictEq (a b : PyDict) : Bool :=
  ((a.map fun p => p.1).all fun k =>
    match dictGet a k, dictGet b k with
    | some x, some y => pyEq x y
    | _, _ => false) &&
  ((b.map fun p => p.1).all fun k => (dictGet a k).isSome)

/-- Modelled from the spec: "order is the node's declared `display_order`
(stable, ascending; ties keep insertion order)" — a stable insertion sort
on `display_order`, used only to compare the code's actual output order
against the spec's claimed order. -/
def specInsertByOrder (c : Choice) : List Choice → List Choice
  | [] => [c]
  | d :: ds =>
    if c.display_order ≤ d.display_order then c :: d :: ds
    else d :: specInsertByOrder c ds

/-- Modelled from the spec: stable ascending sort of a choice list by
`display_order`. -/
def specSortByDisplayOrder : List Choice → List Choice
  | [] => []
  | c :: cs => specInsertByOrder c (specSortByDisplayOrder cs)

/-- Whether a choice list is already ascending in `display_order`. -/
def ascendingByDisplayOrder : List Choice → Bool
  | [] => true
  | [_] => true
  | c :: d :: ds => c.display_order ≤ d.display_order && ascendingByDisplayOrder (d :: ds)

/-- The `.ok true` test on an evaluation outcome. -/
def isOkTrue : Except PyErr Bool → Bool
  | .ok true => true
  | _ => false

/-- Whether an evaluation completed without raising. -/
def isOkRes : Except PyErr Bool → Bool
  | .ok _ => true
  | .error _ => false

/-! Concrete fixtures used by the counterexamples and witnesses below. -/

/-- An always-available ending choice with display order 2. -/
def chA : Choice :=
  { id := "A", text := "go left", target_node_id := none, display_order := 2,
    conditions := [], state_changes := [] }

/-- An always-available ending choice with display order 1. -/
def chB : Choice :=
  { id := "B", text := "go right", target_node_id := none, display_order := 1,
    conditions := [], state_changes := [] }

/-- A node whose stored choice list is not ascending in display order. -/
def nodeC5 : GameNode :=
  { id := "n1", title := "start", is_start_node := true, is_end_node := false,
    choices := [chA, chB] }

/-- A fresh session with empty variables. -/
def sBase : GameState :=
  { project_id := "p", player_id := "u", current_node_id := some "n1",
    vars := [], choice_history := [], save_name := none, completed := "N" }

/-- A choice gated by `gold == 1`, unavailable against empty variables. -/
def cUnavail : Choice :=
  { id := "cu", text := "locked", target_node_id := some "n2", display_order := 0,
    conditions := [⟨"gold", "eq", DVal.num 1⟩], state_changes := [] }

/-- A session holding `gold = 10` with one prior choice in its history. -/
def sGold : GameState :=
  { project_id := "p", player_id := "u", current_node_id := some "n1",
    vars := [("gold", DVal.num 10)], choice_history := ["c0"], save_name := none,
    completed := "N" }

/-- An unconditional choice adding 5 gold and moving to node n2. -/
def cGold : Choice :=
  { id := "c1", text := "buy", target_node_id := some "n2", display_order := 0,
    conditions := [], state_changes := [("gold", .struct "add" (DVal.num 5))] }

/-- An unconditional choice whose state change adds a string to a number. -/
def cBoom : Choice :=
  { id := "c2", text := "boom", target_node_id := some "n2", display_order := 0,
    conditions := [], state_changes := [("gold", .struct "add" (DVal.str "boom"))] }

/-- A lone end node with no incoming edges. -/
def nodeEndOnly : GameNode :=
  { id := "ne", title := "The End", is_start_node := false, is_end_node := true,
    choices := [] }

/-- A project with no node flagged as start. -/
def pNoStart : Project :=
  { id := "pr", name := "P", published := false, nodes := [nodeEndOnly] }

/-- A completed session. -/
def sDone : GameState := { sBase with completed := "Y" }

/-- A start node. -/
def nodeStart : GameNode :=
  { id := "n1", title := "start", is_start_node := true, is_end_node := false,
    choices := [chA] }

/-- A project with a start node and an end node. -/
def pStart : Project :=
  { id := "pr2", name := "Q", published := false, nodes := [nodeStart, nodeEndOnly] }

/-- The session produced by restarting `sDone` against `pStart`. -/
def sRestarted : GameState :=
  { sDone with
    current_node_id := some "n1"
    vars := []
    choice_history := []
    completed := "N" }

/-! Helper lemmas. -/

/-- Looking up the key just written by `dictSet`. -/
theorem dictGet_dictSet (st : PyDict) (k : String) (v : DVal) :
    dictGet (dictSet st k v) k = some v := by
  induction st with
  | nil => simp [dictSet, dictGet]
  | cons hd tl ih =>
    obtain ⟨k', v'⟩ := hd
    by_cases h : k' = k
    · simp [dictSet, dictGet, h]
    · simp [dictSet, dictGet, h, ih]

end AdventureGame

mutual

theorem AdventureGame.pyEq_refl : ∀ v : AdventureGame.DVal,
    AdventureGame.pyEq v v = true
  | .null => rfl
  | .bool b => by simp [AdventureGame.pyEq]
  | .num n => by simp [AdventureGame.pyEq]
  | .str s => by simp [AdventureGame.pyEq]
  | .list xs => by
    simp only [AdventureGame.pyEq]
    exact AdventureGame.pyEqList_refl xs

theorem AdventureGame.pyEqList_refl : ∀ xs : List AdventureGame.DVal,
    AdventureGame.pyEqList xs xs = true
  | [] => rfl
  | x :: xs => by
    simp only [AdventureGame.pyEqList, Bool.and_eq_true]
    exact ⟨AdventureGame.pyEq_refl x, AdventureGame.pyEqList_refl xs⟩

end

namespace AdventureGame

/-- Every key of a dictionary has a value. -/
theorem dictGet_of_mem_keys (dct : PyDict) (k : String)
    (h : k ∈ dct.map fun p => p.1) : ∃ x, dictGet dct k = some x := by
  induction dct with
  | nil => simp at h
  | cons hd tl ih =>
    obtain ⟨k', v'⟩ := hd
    by_cases hk : k' = k
    · exact ⟨v', by simp [dictGet, hk]⟩
    · simp only [List.map_cons, List.mem_cons] at h
      rcases h with h | h
      · exact absurd h.symm hk
      · obtain ⟨x, hx⟩ := ih h
        exact ⟨x, by simp [dictGet, hk, hx]⟩

/-- Python dictionary equality is reflexive. -/
theorem pyDictEq_refl (dct : PyDict) : pyDictEq dct dct = true := by
  unfold pyDictEq
  rw [Bool.and_eq_true]
  constructor
  · rw [List.all_eq_true]
    intro k hk
    obtain ⟨x, hx⟩ := dictGet_of_mem_keys dct k hk
    rw [hx]
    simp [pyEq_refl]
  · rw [List.all_eq_true]
    intro k hk
    obtain ⟨x, hx⟩ := dictGet_of_mem_keys dct k hk
    rw [hx]
    rfl

/-- C1 counterexample: with state `{"x": "hello"}`, evaluating the
condition `x gt 5` performs the Python comparison `"hello" > 5`, which
raises a `TypeError` instead of failing closed to `false`: condition
evaluation can raise on a type mismatch with a truthy operand. -/
theorem evalCond_gt_string_raises :
    evalCond ⟨"x", "gt", DVal.num 5⟩ [("x", DVal.str "hello")] =
      .error PyErr.typeError := rfl

/-- C1 (amended): an operator outside the closed twelve-operator set
evaluates to `false` for every state, without raising.  (Type mismatches
between truthy operands of the known operators, by contrast, raise a
`TypeError` rather than failing closed — see the counterexample.) -/
theorem evalCond_unknown_operator_false (c : Cond) (st : PyDict)
    (h : c.operator ∉ ["eq", "ne", "gt", "gte", "lt", "lte", "contains",
      "not_contains", "in", "not_in", "exists", "not_exists"]) :
    evalCond c st = .ok false := by
  simp only [List.mem_cons, not_or] at h
  obtain ⟨h1, h2, h3, h4, h5, h6, h7, h8, h9, h10, h11, h12, -⟩ := h
  simp [evalCond, h1, h2, h3, h4, h5, h6, h7, h8, h9, h10, h11, h12]

/-- Witness for the amended C1 theorem at the unknown operator
`"bogus"`. -/
theorem evalCond_unknown_operator_false_witness :
    ("bogus" ∉ ["eq", "ne", "gt", "gte", "lt", "lte", "contains",
      "not_contains", "in", "not_in", "exists", "not_exists"]) ∧
    evalCond ⟨"x", "bogus", DVal.num 1⟩ [] = .ok false :=
  ⟨by decide, evalCond_unknown_operator_false ⟨"x", "bogus", DVal.num 1⟩ [] (by decide)⟩

/-- C2: `apply_state_changes` makes only a shallow copy, so an `append`
on a list-valued entry mutates the caller's list in place: after applying
`{"tags": {"operation": "append", "value": "hero"}}` to
`{"tags": ["old"]}`, the caller's mapping has become
`{"tags": ["old", "hero"]}` — it is not left unchanged. -/
theorem applyStateChanges_append_mutates_input :
    applyStateChanges [("tags", Change.struct "append" (DVal.str "hero"))]
        [("tags", DVal.list [DVal.str "old"])] =
      (.ok [("tags", DVal.list [DVal.str "old", DVal.str "hero"])],
        [("tags", DVal.list [DVal.str "old", DVal.str "hero"])]) ∧
    ([("tags", DVal.list [DVal.str "old", DVal.str "hero"])] : PyDict) ≠
      [("tags", DVal.list [DVal.str "old"])] :=
  ⟨rfl, by decide⟩

/-- C6: under the numeric operators `gt/gte/lt/lte`, a missing variable
and a variable holding null each evaluate exactly as a variable set to 0,
a null expected value evaluates exactly as an expected value of 0, and in
particular `gold gte 10` is false against `{}` and true against
`{"gold": 15}`. -/
theorem evalCond_numeric_zero_default (op vn : String) (v : DVal) (st : PyDict)
    (hop : op ∈ ["gt", "gte", "lt", "lte"]) :
    (dictGet st vn = none →
      evalCond ⟨vn, op, v⟩ st = evalCond ⟨vn, op, v⟩ (dictSet st vn (DVal.num 0))) ∧
    (dictGet st vn = some DVal.null →
      evalCond ⟨vn, op, v⟩ st = evalCond ⟨vn, op, v⟩ (dictSet st vn (DVal.num 0))) ∧
    evalCond ⟨vn, op, DVal.null⟩ st = evalCond ⟨vn, op, DVal.num 0⟩ st ∧
    evalCond ⟨"gold", "gte", DVal.num 10⟩ [] = .ok false ∧
    evalCond ⟨"gold", "gte", DVal.num 10⟩ [("gold", DVal.num 15)] = .ok true := by
  have hset := dictGet_dictSet st vn (DVal.num 0)
  simp only [List.mem_cons, List.not_mem_nil, or_false] at hop
  rcases hop with rfl | rfl | rfl | rfl <;>
    refine ⟨fun hmiss => ?_, fun hnull => ?_, ?_, rfl, rfl⟩ <;>
    simp [evalCond, hset, orDefault, truthy, *]

/-- Witness for C6 at `gte`, the variable `gold` and the empty state. -/
theorem evalCond_numeric_zero_default_witness :
    ("gte" ∈ ["gt", "gte", "lt", "lte"]) ∧
    dictGet [] "gold" = none ∧
    evalCond ⟨"gold", "gte", DVal.num 10⟩ [] =
      evalCond ⟨"gold", "gte", DVal.num 10⟩ (dictSet [] "gold" (DVal.num 0)) :=
  ⟨by decide, rfl,
    (evalCond_numeric_zero_default "gte" "gold" (DVal.num 10) [] (by decide)).1 rfl⟩

/-- Running `evalCondResults` under error-free evaluation: the collected results
are the per-condition results. -/
theorem evalCondResults_ok (st : PyDict) (f : Cond → Bool) :
    ∀ cs : List Cond, (∀ c ∈ cs, evalCond c st = .ok (f c)) →
      evalCondResults cs st = .ok (cs.map f)
  | [], _ => rfl
  | c :: cs, h => by
    have hc : evalCond c st = .ok (f c) := h c (by simp)
    have ih := evalCondResults_ok st f cs fun d hd => h d (List.mem_cons_of_mem _ hd)
    simp [evalCondResults, hc, ih, Bind.bind, Except.bind]

/-- Running `evaluate_conditions_list` under error-free evaluation computes the
conjunction of the per-condition results. -/
theorem evaluateConditionsList_ok (st : PyDict) (g : Condition → Bool) :
    ∀ cs : List Condition, (∀ c ∈ cs, conditionEvaluate c st = .ok (g c)) →
      evaluateConditionsList cs st = .ok (cs.all g)
  | [], _ => rfl
  | c :: cs, h => by
    have hc : conditionEvaluate c st = .ok (g c) := h c (by simp)
    have ih := evaluateConditionsList_ok st g cs fun d hd => h d (List.mem_cons_of_mem _ hd)
    cases hg : g c <;> simp [evaluateConditionsList, hc, hg, ih, Bind.bind, Except.bind]

/-- C7: an empty condition list evaluates to true for every state, both in
`Choice._evaluate_conditions` and in `evaluate_conditions_list`; a choice
with no conditions is always available; and whenever every condition of a
non-empty list evaluates without error, both evaluators return the logical
AND of the per-condition results. -/
theorem evaluate_all_and_semantics (st : PyDict) (cs : List Cond) (f : Cond → Bool)
    (el : List Condition) (g : Condition → Bool)
    (hcs : ∀ c ∈ cs, evalCond c st = .ok (f c))
    (hel : ∀ c ∈ el, conditionEvaluate c st = .ok (g c)) :
    evaluateConditionsChoice [] st = .ok true ∧
    evaluateConditionsList [] st = .ok true ∧
    (∀ ch : Choice, ch.conditions = [] → isAvailable ch st = .ok true) ∧
    evaluateConditionsChoice cs st = .ok (cs.all f) ∧
    evaluateConditionsList el st = .ok (el.all g) := by
  refine ⟨rfl, rfl, fun ch hch => by simp [isAvailable, hch], ?_,
    evaluateConditionsList_ok st g el hel⟩
  have hallmap : ∀ l : List Cond, (l.map f).all (fun b => b) = l.all f := by
    intro l; induction l <;> simp_all
  rcases cs with - | ⟨c, cs⟩
  · rfl
  · simp only [evaluateConditionsChoice, List.isEmpty_cons, Bool.false_eq_true,
      if_false, evalCondResults_ok st f _ hcs, Except.map]
    rw [hallmap]

/-- Witness for C7: one false condition against the empty state, and an
empty entity list. -/
theorem evaluate_all_and_semantics_witness :
    (∀ c ∈ [(⟨"gold", "gte", DVal.num 10⟩ : Cond)],
      evalCond c ([] : PyDict) = .ok false) ∧
    evaluateConditionsChoice [⟨"gold", "gte", DVal.num 10⟩] [] = .ok false :=
  ⟨by decide,
    (evaluate_all_and_semantics [] [⟨"gold", "gte", DVal.num 10⟩] (fun _ => false)
      [] (fun _ => true) (by decide) (by simp)).2.2.2.1⟩

/-- C3: when the choice's conditions evaluate (without error) to not all
true, `make_choice` rejects the transition with the unavailable-choice
`ValueError` and the session — current node, variables, history and
completed flag — is left exactly as it was. -/
theorem makeChoice_unavailable_rejected (s : GameState) (c : Choice)
    (h : isAvailable c s.vars = .ok false) :
    makeChoice s c = (.error PyErr.valueError, s) := by
  unfold makeChoice
  rw [h]

/-- Witness for C3: choosing `cUnavail` (requires `gold == 1`) against a
session with empty variables. -/
theorem makeChoice_unavailable_rejected_witness :
    isAvailable cUnavail sBase.vars = .ok false ∧
    makeChoice sBase cUnavail = (.error PyErr.valueError, sBase) :=
  ⟨by decide, makeChoice_unavailable_rejected sBase cUnavail (by decide)⟩

/-- C4 counterexample: `cBoom` is available (no conditions) but its state
change adds a string to a number, so `make_choice` raises a `TypeError`
out of `apply_state_changes` instead of appending to the history and
moving to the target node — the session is unchanged and the history did
not grow. -/
theorem makeChoice_apply_raises :
    isAvailable cBoom sGold.vars = .ok true ∧
    makeChoice sGold cBoom = (.error PyErr.typeError, sGold) ∧
    (makeChoice sGold cBoom).2.choice_history = sGold.choice_history :=
  ⟨by decide, by decide, by decide⟩

/-- C4 (amended): for every available choice whose state-change
application completes without raising, `make_choice` replaces the
variables with the applied result, appends exactly the choice id to the
history, moves the current node to the choice's target, sets
`completed` to true when the new current node is null and leaves the flag
untouched otherwise, and returns the new node id, updated variables,
completion flag and full history. -/
theorem makeChoice_available_transition (s : GameState) (c : Choice) (nv : PyDict)
    (hav : isAvailable c s.vars = .ok true)
    (happ : (applyStateChanges c.state_changes s.vars).1 = .ok nv) :
    (makeChoice s c).2.vars = nv ∧
    (makeChoice s c).2.choice_history = s.choice_history ++ [c.id] ∧
    (makeChoice s c).2.current_node_id = c.target_node_id ∧
    (c.target_node_id = none → isCompleted (makeChoice s c).2 = true) ∧
    (∀ nid, c.target_node_id = some nid → (makeChoice s c).2.completed = s.completed) ∧
    (makeChoice s c).1 = .ok (⟨c.target_node_id, nv, isCompleted (makeChoice s c).2,
      s.choice_history ++ [c.id]⟩ : MakeChoiceResult) := by
  rcases hP : applyStateChanges c.state_changes s.vars with ⟨r, after⟩
  rw [hP] at happ
  simp only at happ
  subst happ
  unfold makeChoice
  rw [hav, hP]
  cases htn : c.target_node_id with
  | none => simp [moveToNode, isCompleted]
  | some nid => simp [moveToNode, isCompleted]

/-- Witness for the amended C4: buying with `cGold` from `gold = 10`
yields `gold = 15`, a one-longer history and node n2. -/
theorem makeChoice_available_transition_witness :
    isAvailable cGold sGold.vars = .ok true ∧
    (applyStateChanges cGold.state_changes sGold.vars).1 = .ok [("gold", DVal.num 15)] ∧
    (makeChoice sGold cGold).2.choice_history = sGold.choice_history ++ [cGold.id] :=
  ⟨by decide, by decide,
    (makeChoice_available_transition sGold cGold [("gold", DVal.num 15)]
      (by decide) (by decide)).2.1⟩

/-- C10: `move_to_node` (and hence `make_choice`, on every path) never
clears the completed flag — moving to a node leaves the flag exactly as
it was, moving to null sets it — and a successful `restart_game` is the
operation that resets it to false. -/
theorem completed_never_cleared :
    (∀ (s : GameState) (nid : Option String),
      isCompleted s = true → isCompleted (moveToNode s nid) = true) ∧
    (∀ (s : GameState) (nid : String), (moveToNode s (some nid)).completed = s.completed) ∧
    (∀ (s : GameState) (c : Choice),
      isCompleted s = true → isCompleted (makeChoice s c).2 = true) ∧
    (∀ (s : GameState) (p : Project) (s' : GameState),
      restartGame s p = .ok s' → isCompleted s' = false) := by
  refine ⟨?_, ?_, ?_, ?_⟩
  · intro s nid h
    cases nid with
    | none => rfl
    | some nid => simpa [moveToNode, isCompleted] using h
  · intro s nid
    rfl
  · intro s c h
    unfold makeChoice
    cases hA : isAvailable c s.vars with
    | error e => simpa using h
    | ok b =>
      cases b
      · simpa using h
      · rcases hP : applyStateChanges c.state_changes s.vars with ⟨r, after⟩
        cases r with
        | error e => simpa [isCompleted] using h
        | ok nv =>
          cases htn : c.target_node_id with
          | none => simp [moveToNode, isCompleted]
          | some nid => simpa [moveToNode, isCompleted] using h
  · intro s p s' h
    unfold restartGame at h
    cases hS : getStartNode p with
    | none => rw [hS] at h; exact absurd h (by simp)
    | some n =>
      rw [hS] at h
      rw [← Except.ok.inj h]
      rfl

/-- Witness for C10 on a completed session, with a restart against a
project that has a start node. -/
theorem completed_never_cleared_witness :
    isCompleted sDone = true ∧
    isCompleted (moveToNode sDone (some "n2")) = true ∧
    isCompleted (makeChoice sDone chA).2 = true ∧
    restartGame sDone pStart = .ok sRestarted ∧
    isCompleted sRestarted = false :=
  ⟨rfl, completed_never_cleared.1 sDone (some "n2") rfl,
    completed_never_cleared.2.2.1 sDone chA rfl,
    by decide,
    completed_never_cleared.2.2.2 sDone pStart sRestarted (by decide)⟩

/-- C5 counterexample: `nodeC5` stores its two always-available choices
as `[chA, chB]` with display orders 2 and 1; `get_available_choices`
returns them in stored order `[chA, chB]`, not in the ascending
display-order `[chB, chA]` the claim asserts — no sort is applied. -/
theorem getAvailableChoices_not_sorted :
    getAvailableChoices nodeC5 [] = .ok [chA, chB] ∧
    specSortByDisplayOrder [chA, chB] = [chB, chA] ∧
    ascendingByDisplayOrder [chA, chB] = false ∧
    ([chA, chB] : List Choice) ≠ [chB, chA] :=
  ⟨by decide, by decide, by decide, by decide⟩

/-- The filtering loop keeps exactly the available choices, in stored
order, whenever no availability check raises. -/
theorem goAvailable_filter (st : PyDict) :
    ∀ cs : List Choice, (∀ c ∈ cs, isOkRes (isAvailable c st) = true) →
      goAvailable cs st = .ok (cs.filter fun c => isOkTrue (isAvailable c st))
  | [], _ => rfl
  | c :: cs, h => by
    have hc := h c (by simp)
    have ih := goAvailable_filter st cs fun d hd => h d (List.mem_cons_of_mem _ hd)
    cases hA : isAvailable c st with
    | error e => rw [hA] at hc; simp [isOkRes] at hc
    | ok b =>
      cases b <;>
        simp [goAvailable, hA, ih, Bind.bind, Except.bind, List.filter_cons, isOkTrue]

/-- C5 (amended): whenever every availability check evaluates without
raising, the available choices are exactly the node's stored choice list
filtered by condition evaluation, in the stored (declared) list order —
no reordering by `display_order` takes place. -/
theorem getAvailableChoices_declared_order (n : GameNode) (st : PyDict)
    (h : ∀ c ∈ n.choices, isOkRes (isAvailable c st) = true) :
    getAvailableChoices n st = .ok (n.choices.filter fun c => isOkTrue (isAvailable c st)) :=
  goAvailable_filter st n.choices h

/-- Witness for the amended C5 on `nodeC5` against the empty state. -/
theorem getAvailableChoices_declared_order_witness :
    (∀ c ∈ nodeC5.choices, isOkRes (isAvailable c ([] : PyDict)) = true) ∧
    getAvailableChoices nodeC5 [] =
      .ok (nodeC5.choices.filter fun c => isOkTrue (isAvailable c [])) :=
  ⟨by decide, getAvailableChoices_declared_order nodeC5 [] (by decide)⟩

/-- C8: `publish` always returns exactly the structural validation
errors; the published flag becomes true only when validation is clean
(or already was true); and a project with no node flagged as start gets
a non-empty error list containing the start-node message, with `publish`
leaving an unpublished project unpublished. -/
theorem publish_validation_gate (p : Project)
    (hns : ∀ n ∈ p.nodes, n.is_start_node = false) :
    (∀ q : Project, (publish q).1 = validateStructure q) ∧
    (∀ q : Project, ((publish q).2).published = (q.published || (validateStructure q).isEmpty)) ∧
    "Project must have exactly one start node" ∈ validateStructure p ∧
    validateStructure p ≠ [] ∧
    (p.published = false → ((publish p).2).published = false) := by
  have hsn : getStartNode p = none := by
    unfold getStartNode
    rw [List.find?_eq_none]
    intro n hn
    simp [hns n hn]
  have hmem : "Project must have exactly one start node" ∈ validateStructure p := by
    unfold validateStructure
    rw [hsn]
    cases hE : (getEndNodes p).isEmpty <;> simp
  have hne : validateStructure p ≠ [] := List.ne_nil_of_mem hmem
  have hpub : ∀ q : Project,
      ((publish q).2).published = (q.published || (validateStructure q).isEmpty) := by
    intro q
    cases hemp : (validateStructure q).isEmpty with
    | false => simp [publish, hemp]
    | true => simp [publish, hemp]
  refine ⟨fun q => ?_, hpub, hmem, hne, fun hp => ?_⟩
  · unfold publish
    cases hemp : (validateStructure q).isEmpty <;> simp [hemp]
  · rw [hpub p, hp]
    simpa [List.isEmpty_iff] using hne

/-- Witness for C8 on the startless project `pNoStart`. -/
theorem publish_validation_gate_witness :
    (∀ n ∈ pNoStart.nodes, n.is_start_node = false) ∧
    "Project must have exactly one start node" ∈ validateStructure pNoStart ∧
    validateStructure pNoStart ≠ [] ∧
    ((publish pNoStart).2).published = false :=
  ⟨by decide, (publish_validation_gate pNoStart (by decide)).2.2.1,
    (publish_validation_gate pNoStart (by decide)).2.2.2.1,
    (publish_validation_gate pNoStart (by decide)).2.2.2.2 rfl⟩

/-- C9 counterexample: a condition dictionary without a `description` key
does not round-trip to an equal dictionary (`to_json_dict` always emits
`description`, here as null), and neither does one whose operator string
is not a recognized operator (`from_json_dict` silently falls back to
`eq`). -/
theorem condition_roundtrip_not_exact :
    pyDictEq [("variable", DVal.str "x"), ("operator", DVal.str "eq"), ("value", DVal.null)]
      (toJsonDict (fromJsonDict [("variable", DVal.str "x"), ("operator", DVal.str "eq"),
        ("value", DVal.null)])) = false ∧
    pyDictEq [("variable", DVal.str "x"), ("operator", DVal.str "bogus"),
      ("value", DVal.null), ("description", DVal.null)]
      (toJsonDict (fromJsonDict [("variable", DVal.str "x"), ("operator", DVal.str "bogus"),
        ("value", DVal.null), ("description", DVal.null)])) = false :=
  ⟨by decide, by decide⟩

/-- Python `ConditionOperator(s)` inverts `.value` on every enum member. -/
theorem strToOperator_toStr (op : ConditionOperator) :
    strToOperator op.toStr = some op := by
  cases op <;> rfl

/-- C9 (amended): a condition dictionary whose operator is one of the
twelve recognized operator strings and which carries all four keys
(`variable` as a string, `value` arbitrary, `description` present,
possibly null) round-trips through `from_json_dict` and `to_json_dict`
to a Python-equal — in fact identical — dictionary. -/
theorem condition_roundtrip_exact (vn : String) (op : ConditionOperator) (v d : DVal) :
    toJsonDict (fromJsonDict [("variable", DVal.str vn), ("operator", DVal.str op.toStr),
      ("value", v), ("description", d)]) =
      [("variable", DVal.str vn), ("operator", DVal.str op.toStr),
        ("value", v), ("description", d)] ∧
    pyDictEq [("variable", DVal.str vn), ("operator", DVal.str op.toStr),
      ("value", v), ("description", d)]
      (toJsonDict (fromJsonDict [("variable", DVal.str vn), ("operator", DVal.str op.toStr),
        ("value", v), ("description", d)])) = true := by
  have h1 : toJsonDict (fromJsonDict [("variable", DVal.str vn),
      ("operator", DVal.str op.toStr), ("value", v), ("description", d)]) =
      [("variable", DVal.str vn), ("operator", DVal.str op.toStr),
        ("value", v), ("description", d)] := by
    simp [fromJsonDict, dictGet, toJsonDict, strToOperator_toStr]
  exact ⟨h1, by rw [h1]; exact pyDictEq_refl _⟩

end AdventureGame
